import Mathlib

/-!
Shallow embedding of `src/evioBench.cc` (EVIO file IO benchmark).

The program opens each named file in turn, queries its EVIO version
(only 2 and 3 are accepted), reads records into a single reused
102400-word buffer, guards the decoded length against the buffer
capacity, classifies each record by the tag in the upper 16 bits of
word 1, accumulates statistics, and prints a report.  Any error aborts
the run with exit status 2, closing the currently open source.

Machine integers are embedded as `Nat` with explicit reduction
modulo `2^32` (`unsigned int`) or `2^64` (`uint64_t`) wherever the C
code can overflow.  The external EVIO library calls (`evOpen`,
`evIoctl`, `evRead`, `evClose`) are out of scope of the repository;
their behaviour is modelled from the spec (§4.1, §5): a source either
fails to open or yields a version, a list of records (each staged into
the reused buffer), and finally either end-of-stream or a read error.
-/

deriving instance DecidableEq for Except

namespace EvioBench

/-- Modulus of 32-bit unsigned arithmetic (`unsigned int`). -/
def U32 : Nat := 2 ^ 32

/-- Modulus of 64-bit unsigned arithmetic (`uint64_t`). -/
def U64 : Nat := 2 ^ 64

/-- Hardcoded event buffer size in 4-byte longwords (evioBench.cc:23). -/
def MAXEVLEN : Nat := 102400

/-- Event types up to this value are physics events (evioBench.cc:26). -/
def MAX_PHYS_EVTYPE : Nat := 14

/-- Hall A control event type constant (evioBench.cc:27). -/
def SYNC_EVTYPE : Nat := 16

/-- Hall A control event type constant (evioBench.cc:28). -/
def PRESTART_EVTYPE : Nat := 17

/-- Hall A control event type constant (evioBench.cc:29). -/
def GO_EVTYPE : Nat := 18

/-- Hall A control event type constant (evioBench.cc:30). -/
def PAUSE_EVTYPE : Nat := 19

/-- Hall A control event type constant (evioBench.cc:31). -/
def END_EVTYPE : Nat := 20

/-- The failure modes of a benchmark run (the `runtime_error` throws of
`main`, evioBench.cc:81,83,90,93,104,132,151). -/
inductive EvioError where
  | OpenFailure : EvioError
  | UnsupportedVersion : Nat → EvioError
  | ReadFailure : EvioError
  | BufferOverflow : EvioError
  | UnrecognizedTag : Nat → EvioError
deriving DecidableEq, Repr

/-- The mutable state of `main`: the statistics accumulators
(evioBench.cc:62-67), the global physics sequence counter `gEvNum`
(evioBench.cc:56), and the reused 102400-word event buffer
(evioBench.cc:70, zero-initialized by `make_unique`). -/
structure BenchState where
  nev : Nat
  nphys : Nat
  max_evlen : Nat
  min_evlen : Nat
  max_evlen_any : Nat
  totlen : Nat
  gEvNum : Nat
  buf : Nat → Nat

/-- Initial state: counters zero, `min_evlen = numeric_limits<unsigned
int>::max()` (evioBench.cc:65), zero-filled buffer. -/
def initState : BenchState :=
  { nev := 0, nphys := 0, max_evlen := 0, min_evlen := U32 - 1,
    max_evlen_any := 0, totlen := 0, gEvNum := 0, buf := fun _ => 0 }

/-- Modelled from the spec: `evRead` (external EVIO library, spec §5)
stages one record into the reused event buffer, overwriting its first
`rec.length` words and leaving the rest of the buffer unchanged. -/
def stage (rec : List Nat) (buf : Nat → Nat) : Nat → Nat :=
  fun i => rec.getD i (buf i)

/-- `evbuffer[0]+1`, the decoded record length in longwords, with
unsigned-int wraparound (evioBench.cc:102). -/
def bufEvlen (b : Nat → Nat) : Nat := (b 0 + 1) % U32

/-- `evbuffer[1] >> 16`, the bank tag in the upper 16 bits of word 1
(evioBench.cc:110,114). -/
def bufTag (b : Nat → Nat) : Nat := b 1 / 65536

/-- Classification of the staged record into an event type
(evioBench.cc:108-134): under version 2 the type is the tag itself;
under any other version the v3 switch maps the four recognized tag
groups and throws `UnrecognizedTag` otherwise. -/
def classify (version : Nat) (b : Nat → Nat) : Except EvioError Nat :=
  if version = 2 then
    .ok (bufTag b)
  else if bufTag b = 0xffd1 then .ok PRESTART_EVTYPE
  else if bufTag b = 0xffd2 then .ok GO_EVTYPE
  else if bufTag b = 0xffd4 then .ok END_EVTYPE
  else if bufTag b = 0xff50 ∨ bufTag b = 0xff58 ∨ bufTag b = 0xff70 then .ok 1
  else .error (.UnrecognizedTag (bufTag b))

/-- One iteration of the read loop body after a successful `evRead`
(evioBench.cc:100-148): stage the record, count it, check the decoded
length against `MAXEVLEN`, update the all-record maximum and the
cumulative length, classify, and, for physics events, update the
physics statistics and the sequence number (word 4 under v2, an
increment of `gEvNum` under v3). -/
def processRecord (version : Nat) (rec : List Nat) (s : BenchState) :
    Except EvioError BenchState :=
  let b := stage rec s.buf
  let s1 : BenchState := { s with buf := b, nev := (s.nev + 1) % U32 }
  let evlen := bufEvlen b
  if MAXEVLEN < evlen then
    .error .BufferOverflow
  else
    let s2 : BenchState := { s1 with
      max_evlen_any := max s1.max_evlen_any evlen,
      totlen := (s1.totlen + evlen) % U64 }
    match classify version b with
    | .error e => .error e
    | .ok evtype =>
      if evtype ≤ MAX_PHYS_EVTYPE then
        let s3 : BenchState := { s2 with
          nphys := (s2.nphys + 1) % U32,
          max_evlen := max s2.max_evlen evlen,
          min_evlen := min s2.min_evlen evlen }
        if version = 2 then
          .ok { s3 with gEvNum := b 4 }
        else
          .ok { s3 with gEvNum := (s3.gEvNum + 1) % U32 }
      else
        .ok s2

/-- Modelled from the spec: one record-stream source (spec §4.1).
`openOK` is whether `evOpen` succeeds with a valid handle; `version`
is what `evIoctl "v"` reports; `records` are the successive successful
`evRead` results; `readTailError` tells whether the read loop ends
with a genuine read error rather than `EOF` (evioBench.cc:150). -/
structure Source where
  openOK : Bool
  version : Nat
  records : List (List Nat)
  readTailError : Bool
deriving DecidableEq, Repr

/-- The read loop over one source's records (evioBench.cc:96-149).  An
error is paired with the value of `gEvNum` at the moment of the throw,
which the top-level handler prints (evioBench.cc:179). -/
def processRecords (version : Nat) :
    List (List Nat) → BenchState → Except (EvioError × Nat) BenchState
  | [], s => .ok s
  | r :: rs, s =>
    match processRecord version r s with
    | .ok s' => processRecords version rs s'
    | .error e => .error (e, s.gEvNum)

/-- Processing of one source after a successful open: version check
(evioBench.cc:92-93), the read loop, then the end-of-loop check that
the final read status was `EOF` (evioBench.cc:150-151). -/
def processFileAfterOpen (f : Source) (s : BenchState) :
    Except (EvioError × Nat) BenchState :=
  if f.version ≠ 2 ∧ f.version ≠ 3 then
    .error (.UnsupportedVersion f.version, s.gEvNum)
  else
    match processRecords f.version f.records s with
    | .error en => .error en
    | .ok s' =>
      if f.readTailError then .error (.ReadFailure, s'.gEvNum) else .ok s'

/-- The loop over all named sources (evioBench.cc:77-154), statistics
threading only. -/
def processFiles : List Source → BenchState → Except (EvioError × Nat) BenchState
  | [], s => .ok s
  | f :: fs, s =>
    if f.openOK then
      match processFileAfterOpen f s with
      | .ok s' => processFiles fs s'
      | .error en => .error en
    else
      .error (.OpenFailure, s.gEvNum)

/-- Resource events of a run: `evOpen` and `evClose` of source number
`i` (0-based position in the argument list). -/
inductive TraceEv where
  | openEv : Nat → TraceEv
  | closeEv : Nat → TraceEv
deriving DecidableEq, Repr

/-- The loop over all sources with a resource trace: like
`processFiles` but also recording the open/close events and the handle
of the most recently opened source (the value `evClose` would receive
in the top-level catch block, evioBench.cc:181). -/
def processFilesT : List Source → Nat → Option Nat → BenchState →
    Except (EvioError × Nat) BenchState × List TraceEv × Option Nat
  | [], _, h, s => (.ok s, [], h)
  | f :: fs, i, h, s =>
    if f.openOK then
      match processFileAfterOpen f s with
      | .ok s' =>
        let rest := processFilesT fs (i + 1) (some i) s'
        (rest.1, .openEv i :: .closeEv i :: rest.2.1, rest.2.2)
      | .error en => (.error en, [.openEv i], some i)
    else
      (.error (.OpenFailure, s.gEvNum), [], h)

/-- The statistics report printed at the end of a successful run
(evioBench.cc:161-176).  Byte figures carry the C arithmetic of the
corresponding output expressions: `4*totlen` in `uint64_t`,
`4*min_evlen` etc. in `unsigned int`.  The average event length is
printed as the floating-point division `4.0*totlen/nev`
(evioBench.cc:170); `avgDen` records its divisor `nev` exactly. -/
structure Report where
  nFiles : Nat
  nev : Nat
  nphys : Nat
  totBytes : Nat
  minPhysBytes : Nat
  maxPhysBytes : Nat
  maxAnyBytes : Nat
  avgDen : Nat
deriving DecidableEq, Repr

/-- Assemble the report from the final state (evioBench.cc:161-176). -/
def mkReport (nFiles : Nat) (s : BenchState) : Report :=
  { nFiles := nFiles
    nev := s.nev
    nphys := s.nphys
    totBytes := (4 * s.totlen) % U64
    minPhysBytes := (4 * s.min_evlen) % U32
    maxPhysBytes := (4 * s.max_evlen) % U32
    maxAnyBytes := (4 * s.max_evlen_any) % U32
    avgDen := s.nev }

/-- Observable outcome of a whole run: the process exit status, the
report (printed only on success), the error diagnostic `(cause,
gEvNum)` of the catch block (evioBench.cc:179), and the open/close
trace. -/
structure MainOut where
  exitCode : Nat
  report : Option Report
  errMsg : Option (EvioError × Nat)
  trace : List TraceEv
deriving DecidableEq, Repr

/-- The `evClose(handle)` call of the catch block (evioBench.cc:181):
it closes the most recently opened source, or nothing when `handle`
still holds its initial invalid value 0. -/
def catchClose : Option Nat → List TraceEv
  | some i => [TraceEv.closeEv i]
  | none => []

/-- The whole program on a non-empty file list (evioBench.cc:61-184):
on success, exit 0 with the report; on any exception, exit 2, no
report, the diagnostic message, and a final `evClose` of the current
handle in the catch block (evioBench.cc:178-182). -/
def evioMain (srcs : List Source) : MainOut :=
  match processFilesT srcs 0 none initState with
  | (.ok s, t, _) =>
    { exitCode := 0, report := some (mkReport srcs.length s),
      errMsg := none, trace := t }
  | (.error en, t, h) =>
    { exitCode := 2, report := none, errMsg := some en,
      trace := t ++ catchClose h }

/-- Decoded length of a record read from its own word 0 (meaningful
when the record carries at least one word). -/
def recEvlen (r : List Nat) : Nat := (r.getD 0 0 + 1) % U32

/-- Tag of a record read from its own word 1 (meaningful when the
record carries at least two words). -/
def recTag (r : List Nat) : Nat := r.getD 1 0 / 65536

/-- Whether a record is classified as physics under the given version:
under v2 the tag is at most `MAX_PHYS_EVTYPE`; under v3 it is one of
the three physics bank tags (all other recognized v3 tags map to
control types above 14). -/
def recIsPhys (version : Nat) (r : List Nat) : Bool :=
  if version = 2 then
    decide (recTag r ≤ MAX_PHYS_EVTYPE)
  else
    decide (recTag r = 0xff50) || decide (recTag r = 0xff58) ||
      decide (recTag r = 0xff70)

/-- Whether a record's tag is accepted by `classify` under the given
version (v2 accepts everything; v3 accepts the six mapped tags). -/
def recTagKnown (version : Nat) (r : List Nat) : Bool :=
  decide (version = 2) ||
    decide (recTag r = 0xffd1) || decide (recTag r = 0xffd2) ||
    decide (recTag r = 0xffd4) || decide (recTag r = 0xff50) ||
    decide (recTag r = 0xff58) || decide (recTag r = 0xff70)

/-- Whether a record passes one loop iteration without an exception. -/
def recOK (version : Nat) (r : List Nat) : Bool :=
  decide (recEvlen r ≤ MAXEVLEN) && recTagKnown version r

/-- The successor state of one successful loop iteration, phrased with
the record-intrinsic length and physics test (valid for records that
carry their first two words; see `processRecord_char`). -/
def recNext (version : Nat) (rec : List Nat) (s : BenchState) : BenchState :=
  let b := stage rec s.buf
  let evlen := recEvlen rec
  let s1 : BenchState := { s with buf := b, nev := (s.nev + 1) % U32 }
  let s2 : BenchState := { s1 with
    max_evlen_any := max s1.max_evlen_any evlen,
    totlen := (s1.totlen + evlen) % U64 }
  if recIsPhys version rec then
    let s3 : BenchState := { s2 with
      nphys := (s2.nphys + 1) % U32,
      max_evlen := max s2.max_evlen evlen,
      min_evlen := min s2.min_evlen evlen }
    if version = 2 then
      { s3 with gEvNum := b 4 }
    else
      { s3 with gEvNum := (s3.gEvNum + 1) % U32 }
  else
    s2

/-- Number of physics records in a list, by the intrinsic test. -/
def physCount (version : Nat) (rs : List (List Nat)) : Nat :=
  rs.countP (recIsPhys version)

/-- Total decoded word length of a list of records. -/
def wordCount (rs : List (List Nat)) : Nat :=
  (rs.map recEvlen).sum

/-- States whose wrap-around counters are in range (all states
reachable from `initState` satisfy this). -/
def WFState (s : BenchState) : Prop :=
  s.nev < U32 ∧ s.nphys < U32 ∧ s.totlen < U64

/-- Concrete v2 source with one Sync record (tag 16, 2 words), used as
a test input. -/
def srcSync : Source := ⟨true, 2, [[1, 1048576]], false⟩

/-- Concrete v2 source with one physics record (tag 0, 5 words,
sequence number 7 in word 4), used as a test input. -/
def srcPhys : Source := ⟨true, 2, [[4, 0, 0, 0, 7]], false⟩

/-- The state after processing `srcSync` from the initial state. -/
def stSync : BenchState :=
  { nev := 1, nphys := 0, max_evlen := 0, min_evlen := U32 - 1,
    max_evlen_any := 2, totlen := 2, gEvNum := 0,
    buf := stage [1, 1048576] initState.buf }

/-- The state after processing `srcPhys` from the initial state. -/
def stPhys : BenchState :=
  { nev := 1, nphys := 1, max_evlen := 5, min_evlen := 5,
    max_evlen_any := 5, totlen := 5, gEvNum := 7,
    buf := stage [4, 0, 0, 0, 7] initState.buf }

theorem stage_apply_lt (r : List Nat) (b : Nat → Nat) {i : Nat} (h : i < r.length) :
    stage r b i = r.getD i 0 := by
  unfold stage
  rw [List.getD_eq_getElem r (b i) h, List.getD_eq_getElem r 0 h]

theorem stage_apply_ge (r : List Nat) (b : Nat → Nat) {i : Nat} (h : r.length ≤ i) :
    stage r b i = b i := by
  unfold stage
  exact List.getD_eq_default r (b i) h

theorem bufEvlen_stage (r : List Nat) (b : Nat → Nat) (h : 1 ≤ r.length) :
    bufEvlen (stage r b) = recEvlen r := by
  unfold bufEvlen recEvlen
  rw [stage_apply_lt r b h]

theorem bufTag_stage (r : List Nat) (b : Nat → Nat) (h : 2 ≤ r.length) :
    bufTag (stage r b) = recTag r := by
  unfold bufTag recTag
  rw [stage_apply_lt r b h]

/-- `classify` either succeeds or fails with `UnrecognizedTag` of the
staged tag; no other error can come out of classification. -/
theorem classify_cases (version : Nat) (b : Nat → Nat) :
    (∃ t, classify version b = .ok t) ∨
      classify version b = .error (.UnrecognizedTag (bufTag b)) := by
  simp only [classify]
  split_ifs <;> simp

/-- Characterization of one loop iteration in terms of the
record-intrinsic length, tag and physics test, valid for records that
carry at least their two header words. -/
theorem processRecord_char (version : Nat) (r : List Nat) (s : BenchState)
    (h2 : 2 ≤ r.length) :
    processRecord version r s =
      if MAXEVLEN < recEvlen r then .error .BufferOverflow
      else if recTagKnown version r then .ok (recNext version r s)
      else .error (.UnrecognizedTag (recTag r)) := by
  have h1 : (1 : Nat) ≤ r.length := le_trans (by omega) h2
  have hlen : bufEvlen (stage r s.buf) = recEvlen r := bufEvlen_stage r s.buf h1
  have htag : bufTag (stage r s.buf) = recTag r := bufTag_stage r s.buf h2
  by_cases hov : MAXEVLEN < recEvlen r
  · simp only [processRecord, hlen, if_pos hov, hov, if_true]
  · rw [if_neg hov]
    by_cases hv : version = 2
    · subst hv
      have hcls : classify 2 (stage r s.buf) = .ok (recTag r) := by
        simp [classify, htag]
      simp only [processRecord, hlen, if_neg hov, hcls, recNext, recTagKnown,
        recIsPhys, if_pos rfl]
      by_cases hp : recTag r ≤ MAX_PHYS_EVTYPE
      · simp [hp]
      · simp [hp]
    · have htk : recTagKnown version r =
          (decide (recTag r = 0xffd1) || decide (recTag r = 0xffd2) ||
            decide (recTag r = 0xffd4) || decide (recTag r = 0xff50) ||
            decide (recTag r = 0xff58) || decide (recTag r = 0xff70)) := by
        simp [recTagKnown, hv]
      have hip : recIsPhys version r =
          (decide (recTag r = 0xff50) || decide (recTag r = 0xff58) ||
            decide (recTag r = 0xff70)) := by
        simp [recIsPhys, hv]
      by_cases t1 : recTag r = 0xffd1
      · have hcls : classify version (stage r s.buf) = .ok PRESTART_EVTYPE := by
          simp [classify, htag, hv, t1]
        simp only [processRecord, hlen, if_neg hov, hcls, recNext, htk, hip, t1]
        norm_num [PRESTART_EVTYPE, MAX_PHYS_EVTYPE]
      · by_cases t2 : recTag r = 0xffd2
        · have hcls : classify version (stage r s.buf) = .ok GO_EVTYPE := by
            simp [classify, htag, hv, t1, t2]
          simp only [processRecord, hlen, if_neg hov, hcls, recNext, htk, hip, t2]
          norm_num [GO_EVTYPE, MAX_PHYS_EVTYPE]
        · by_cases t3 : recTag r = 0xffd4
          · have hcls : classify version (stage r s.buf) = .ok END_EVTYPE := by
              simp [classify, htag, hv, t1, t2, t3]
            simp only [processRecord, hlen, if_neg hov, hcls, recNext, htk, hip, t3]
            norm_num [END_EVTYPE, MAX_PHYS_EVTYPE]
          · by_cases t4 : recTag r = 0xff50 ∨ recTag r = 0xff58 ∨ recTag r = 0xff70
            · have hcls : classify version (stage r s.buf) = .ok 1 := by
                simp only [classify, htag, if_neg hv, if_neg t1, if_neg t2, if_neg t3,
                  if_pos t4]
              simp only [processRecord, hlen, if_neg hov, hcls, recNext, htk, hip, hv]
              rcases t4 with t | t | t <;>
                simp [t, MAX_PHYS_EVTYPE]
            · have hcls : classify version (stage r s.buf) =
                  .error (.UnrecognizedTag (recTag r)) := by
                simp only [classify, htag, if_neg hv, if_neg t1, if_neg t2, if_neg t3,
                  if_neg t4]
              push_neg at t4
              simp only [processRecord, hlen, if_neg hov, hcls, htk, t1, t2, t3,
                t4.1, t4.2.1, t4.2.2]
              simp

theorem recNext_nev (version : Nat) (r : List Nat) (s : BenchState) :
    (recNext version r s).nev = (s.nev + 1) % U32 := by
  simp only [recNext]
  split_ifs <;> rfl

theorem recNext_totlen (version : Nat) (r : List Nat) (s : BenchState) :
    (recNext version r s).totlen = (s.totlen + recEvlen r) % U64 := by
  simp only [recNext]
  split_ifs <;> rfl

theorem recNext_max_any (version : Nat) (r : List Nat) (s : BenchState) :
    (recNext version r s).max_evlen_any = max s.max_evlen_any (recEvlen r) := by
  simp only [recNext]
  split_ifs <;> rfl

theorem recNext_buf (version : Nat) (r : List Nat) (s : BenchState) :
    (recNext version r s).buf = stage r s.buf := by
  simp only [recNext]
  split_ifs <;> rfl

theorem recNext_nphys (version : Nat) (r : List Nat) (s : BenchState) :
    (recNext version r s).nphys =
      if recIsPhys version r then (s.nphys + 1) % U32 else s.nphys := by
  simp only [recNext]
  split_ifs <;> rfl

theorem recNext_max_evlen (version : Nat) (r : List Nat) (s : BenchState) :
    (recNext version r s).max_evlen =
      if recIsPhys version r then max s.max_evlen (recEvlen r) else s.max_evlen := by
  simp only [recNext]
  split_ifs <;> rfl

theorem recNext_min_evlen (version : Nat) (r : List Nat) (s : BenchState) :
    (recNext version r s).min_evlen =
      if recIsPhys version r then min s.min_evlen (recEvlen r) else s.min_evlen := by
  simp only [recNext]
  split_ifs <;> rfl

theorem recNext_gEvNum (version : Nat) (r : List Nat) (s : BenchState) :
    (recNext version r s).gEvNum =
      if recIsPhys version r then
        (if version = 2 then stage r s.buf 4 else (s.gEvNum + 1) % U32)
      else s.gEvNum := by
  simp only [recNext]
  split_ifs <;> rfl

/-- Claim C1: for every record obtained from the stream, if the decoded
length (word 0 plus 1, in 4-byte words) exceeds the fixed capacity of
102400 words, processing fails with the fatal BufferOverflow error —
and it does so for every schema version and every content of words 1
and 4 (both left universally quantified here, so neither is
interpreted before the rejection); a record whose decoded length is at
most the capacity is never rejected with BufferOverflow. -/
theorem c1_overflow_guard (version : Nat) (r : List Nat) (s : BenchState) :
    (MAXEVLEN < bufEvlen (stage r s.buf) →
      processRecord version r s = .error .BufferOverflow) ∧
    (bufEvlen (stage r s.buf) ≤ MAXEVLEN →
      processRecord version r s ≠ .error .BufferOverflow) := by
  constructor
  · intro hov
    simp only [processRecord, if_pos hov]
  · intro hle
    have hov : ¬ MAXEVLEN < bufEvlen (stage r s.buf) := not_lt.mpr hle
    simp only [processRecord, if_neg hov]
    rcases classify_cases version (stage r s.buf) with ⟨t, hc⟩ | hc
    · simp only [hc]
      split <;> first
        | (split_ifs <;> simp)
        | simp
    · simp only [hc]
      simp

/-- Witness for C1: a record declaring 200001 words is rejected as
BufferOverflow even though its word 1 holds a tag that version 3 would
reject as unrecognized; a 2-word record with an unmapped v3 tag fails
with UnrecognizedTag, not BufferOverflow. -/
theorem c1_overflow_guard_witness :
    (MAXEVLEN < bufEvlen (stage [200000, 305419896] initState.buf) ∧
      processRecord 3 [200000, 305419896] initState = .error .BufferOverflow) ∧
    (bufEvlen (stage [1, 305419896] initState.buf) ≤ MAXEVLEN ∧
      processRecord 3 [1, 305419896] initState ≠ .error .BufferOverflow) :=
  ⟨⟨by decide, (c1_overflow_guard 3 [200000, 305419896] initState).1 (by decide)⟩,
    ⟨by decide, (c1_overflow_guard 3 [1, 305419896] initState).2 (by decide)⟩⟩

/-- Claim C3: for every record processed under schema version V3,
classification of the tag (upper 16 bits of word 1) yields exactly
Prestart for 0xffd1, Go for 0xffd2, End for 0xffd4, and Physics
(numeric type 1) for each of 0xff50, 0xff58, 0xff70; for every other
tag value it yields the UnrecognizedTag error and no classification,
and that error makes the whole iteration fail (it is fatal). -/
theorem c3_v3_classification (b : Nat → Nat) :
    (bufTag b = 0xffd1 → classify 3 b = .ok PRESTART_EVTYPE) ∧
    (bufTag b = 0xffd2 → classify 3 b = .ok GO_EVTYPE) ∧
    (bufTag b = 0xffd4 → classify 3 b = .ok END_EVTYPE) ∧
    ((bufTag b = 0xff50 ∨ bufTag b = 0xff58 ∨ bufTag b = 0xff70) →
      classify 3 b = .ok 1) ∧
    (bufTag b ≠ 0xffd1 → bufTag b ≠ 0xffd2 → bufTag b ≠ 0xffd4 →
      bufTag b ≠ 0xff50 → bufTag b ≠ 0xff58 → bufTag b ≠ 0xff70 →
      classify 3 b = .error (.UnrecognizedTag (bufTag b))) ∧
    (∀ (r : List Nat) (s : BenchState),
      bufEvlen (stage r s.buf) ≤ MAXEVLEN →
      classify 3 (stage r s.buf) = .error (.UnrecognizedTag (bufTag (stage r s.buf))) →
      processRecord 3 r s = .error (.UnrecognizedTag (bufTag (stage r s.buf)))) := by
  refine ⟨?_, ?_, ?_, ?_, ?_, ?_⟩
  · intro h
    simp [classify, h]
  · intro h
    simp [classify, h]
  · intro h
    simp [classify, h]
  · intro h
    rcases h with h | h | h <;> simp [classify, h]
  · intro h1 h2 h3 h4 h5 h6
    simp [classify, h1, h2, h3, h4, h5, h6]
  · intro r s hle hc
    have hov : ¬ MAXEVLEN < bufEvlen (stage r s.buf) := not_lt.mpr hle
    simp only [processRecord, if_neg hov, hc]

/-- Witness for C3: the four positive mappings at concrete staged
buffers, the rejection of tag 0x1234, and the fatality of the
rejection for a concrete 2-word record. -/
theorem c3_v3_classification_witness :
    classify 3 (stage [1, 0xffd10000] initState.buf) = .ok PRESTART_EVTYPE ∧
    classify 3 (stage [1, 0xffd20000] initState.buf) = .ok GO_EVTYPE ∧
    classify 3 (stage [1, 0xffd40000] initState.buf) = .ok END_EVTYPE ∧
    classify 3 (stage [1, 0xff500000] initState.buf) = .ok 1 ∧
    classify 3 (stage [1, 0xff580000] initState.buf) = .ok 1 ∧
    classify 3 (stage [1, 0xff700000] initState.buf) = .ok 1 ∧
    classify 3 (stage [1, 0x12340000] initState.buf) =
      .error (.UnrecognizedTag 0x1234) ∧
    processRecord 3 [1, 0x12340000] initState =
      .error (.UnrecognizedTag (bufTag (stage [1, 0x12340000] initState.buf))) :=
  ⟨(c3_v3_classification _).1 (by decide),
    (c3_v3_classification _).2.1 (by decide),
    (c3_v3_classification _).2.2.1 (by decide),
    (c3_v3_classification _).2.2.2.1 (Or.inl (by decide)),
    (c3_v3_classification _).2.2.2.1 (Or.inr (Or.inl (by decide))),
    (c3_v3_classification _).2.2.2.1 (Or.inr (Or.inr (by decide))),
    by
      have h := (c3_v3_classification (stage [1, 0x12340000] initState.buf)).2.2.2.2.1
        (by decide) (by decide) (by decide) (by decide) (by decide) (by decide)
      simpa using h,
    (c3_v3_classification (stage [1, 0x12340000] initState.buf)).2.2.2.2.2
      [1, 0x12340000] initState (by decide)
      ((c3_v3_classification (stage [1, 0x12340000] initState.buf)).2.2.2.2.1
        (by decide) (by decide) (by decide) (by decide) (by decide) (by decide))⟩

/-- Processing a concatenated file list is processing the first part
and then, from the state it left behind, the second part; in
particular the statistics and `gEvNum` are never reset between
sources. -/
theorem processFiles_append (xs ys : List Source) (s : BenchState) :
    processFiles (xs ++ ys) s = (processFiles xs s).bind (processFiles ys) := by
  induction xs generalizing s with
  | nil => simp [processFiles, Except.bind]
  | cons f fs ih =>
    simp only [List.cons_append, processFiles]
    by_cases ho : f.openOK = true
    · rw [if_pos ho, if_pos ho]
      cases hf : processFileAfterOpen f s with
      | ok s' => simpa using ih s'
      | error en => simp [Except.bind]
    · rw [if_neg ho, if_neg ho]
      simp [Except.bind]

/-- Claim C4: for every record processed under schema version V2, the
logical event type equals the tag (upper 16 bits of word 1) itself —
classification never fails, whatever the tag — and the record is
counted as physics exactly when that tag is at most 14. -/
theorem c4_v2_classification (r : List Nat) (s : BenchState)
    (hlen : bufEvlen (stage r s.buf) ≤ MAXEVLEN) :
    classify 2 (stage r s.buf) = .ok (bufTag (stage r s.buf)) ∧
    (processRecord 2 r s).isOk = true ∧
    (processRecord 2 r s).map (fun t => t.nphys) =
      .ok (if bufTag (stage r s.buf) ≤ MAX_PHYS_EVTYPE then (s.nphys + 1) % U32
        else s.nphys) := by
  have hov : ¬ MAXEVLEN < bufEvlen (stage r s.buf) := not_lt.mpr hlen
  have hcls : classify 2 (stage r s.buf) = .ok (bufTag (stage r s.buf)) := by
    simp [classify]
  refine ⟨hcls, ?_, ?_⟩
  · simp only [processRecord, if_neg hov, hcls]
    split_ifs <;> rfl
  · simp only [processRecord, if_neg hov, hcls]
    by_cases hp : bufTag (stage r s.buf) ≤ MAX_PHYS_EVTYPE
    · simp [hp, Except.map]
    · simp [hp, Except.map]

/-- Witness for C4: a physics tag (0) and a control tag (16 = Sync)
at concrete records. -/
theorem c4_v2_classification_witness :
    ((processRecord 2 [1, 0] initState).map (fun t => t.nphys) =
      .ok (if bufTag (stage [1, 0] initState.buf) ≤ MAX_PHYS_EVTYPE then
        (initState.nphys + 1) % U32 else initState.nphys)) ∧
    ((processRecord 2 [1, 1048576] initState).map (fun t => t.nphys) =
      .ok (if bufTag (stage [1, 1048576] initState.buf) ≤ MAX_PHYS_EVTYPE then
        (initState.nphys + 1) % U32 else initState.nphys)) :=
  ⟨(c4_v2_classification [1, 0] initState (by decide)).2.2,
    (c4_v2_classification [1, 1048576] initState (by decide)).2.2⟩

/-- Claim C5: after each physics record (a record whose processing
changes the physics count), the running last-known sequence number
equals word 4 of the staged record when the source is V2, and equals
the previous value plus exactly one (modulo 2^32) when the source is
V3; moreover the counter is threaded unchanged from one source to the
next, so the numbering continues across all files of one run. -/
theorem c5_sequence_numbering (version : Nat) (r : List Nat) (s : BenchState)
    (hok : (processRecord version r s).isOk = true)
    (hphys : (processRecord version r s).map (fun t => t.nphys) ≠ .ok s.nphys) :
    (version = 2 →
      (processRecord version r s).map (fun t => t.gEvNum) =
        .ok (stage r s.buf 4)) ∧
    (version = 3 →
      (processRecord version r s).map (fun t => t.gEvNum) =
        .ok ((s.gEvNum + 1) % U32)) ∧
    (∀ (xs ys : List Source) (t : BenchState),
      processFiles (xs ++ ys) t = (processFiles xs t).bind (processFiles ys)) := by
  refine ⟨?_, ?_, fun xs ys t => processFiles_append xs ys t⟩
  · intro hv
    subst hv
    by_cases hov : MAXEVLEN < bufEvlen (stage r s.buf)
    · exfalso
      simp [processRecord, hov, Except.isOk, Except.toBool] at hok
    · have hcls : classify 2 (stage r s.buf) = .ok (bufTag (stage r s.buf)) := by
        simp [classify]
      by_cases hp : bufTag (stage r s.buf) ≤ MAX_PHYS_EVTYPE
      · simp [processRecord, if_neg hov, hcls, hp, Except.map]
      · exfalso
        apply hphys
        simp [processRecord, if_neg hov, hcls, hp, Except.map]
  · intro hv
    subst hv
    by_cases hov : MAXEVLEN < bufEvlen (stage r s.buf)
    · exfalso
      simp [processRecord, hov, Except.isOk, Except.toBool] at hok
    · rcases classify_cases 3 (stage r s.buf) with ⟨t, hc⟩ | hc
      · by_cases hp : t ≤ MAX_PHYS_EVTYPE
        · simp [processRecord, if_neg hov, hc, hp, Except.map]
        · exfalso
          apply hphys
          simp [processRecord, if_neg hov, hc, hp, Except.map]
      · exfalso
        simp [processRecord, if_neg hov, hc, Except.isOk, Except.toBool] at hok

/-- Witness for C5: a v2 physics record carrying sequence number 77 in
word 4, and a v3 physics record advancing the counter from 0 to 1. -/
theorem c5_sequence_numbering_witness :
    ((processRecord 2 [4, 0, 0, 0, 77] initState).map (fun t => t.gEvNum) =
      .ok (stage [4, 0, 0, 0, 77] initState.buf 4)) ∧
    ((processRecord 3 [4, 0xff500000, 0, 0, 0] initState).map (fun t => t.gEvNum) =
      .ok ((initState.gEvNum + 1) % U32)) :=
  ⟨(c5_sequence_numbering 2 [4, 0, 0, 0, 77] initState (by decide) (by decide)).1 rfl,
    (c5_sequence_numbering 3 [4, 0xff500000, 0, 0, 0] initState
      (by decide) (by decide)).2.1 rfl⟩

/-- Claim C7: for every record processed under V2 whose tag is greater
than 14, classification yields that tag as the (non-physics) type and
the update has no length or sequence side effects beyond counting the
record, adding its length, and the all-record maximum-length update:
the physics count, physics minimum and maximum lengths, and the
last-known sequence number are unchanged. -/
theorem c7_v2_nonphysics_effects (r : List Nat) (s : BenchState)
    (hlen : bufEvlen (stage r s.buf) ≤ MAXEVLEN)
    (htag : MAX_PHYS_EVTYPE < bufTag (stage r s.buf)) :
    classify 2 (stage r s.buf) = .ok (bufTag (stage r s.buf)) ∧
    (processRecord 2 r s).map (fun t => t.nphys) = .ok s.nphys ∧
    (processRecord 2 r s).map (fun t => t.max_evlen) = .ok s.max_evlen ∧
    (processRecord 2 r s).map (fun t => t.min_evlen) = .ok s.min_evlen ∧
    (processRecord 2 r s).map (fun t => t.gEvNum) = .ok s.gEvNum ∧
    (processRecord 2 r s).map (fun t => t.nev) = .ok ((s.nev + 1) % U32) ∧
    (processRecord 2 r s).map (fun t => t.totlen) =
      .ok ((s.totlen + bufEvlen (stage r s.buf)) % U64) ∧
    (processRecord 2 r s).map (fun t => t.max_evlen_any) =
      .ok (max s.max_evlen_any (bufEvlen (stage r s.buf))) := by
  have hov : ¬ MAXEVLEN < bufEvlen (stage r s.buf) := not_lt.mpr hlen
  have hcls : classify 2 (stage r s.buf) = .ok (bufTag (stage r s.buf)) := by
    simp [classify]
  have hp : ¬ bufTag (stage r s.buf) ≤ MAX_PHYS_EVTYPE := not_le.mpr htag
  refine ⟨hcls, ?_, ?_, ?_, ?_, ?_, ?_, ?_⟩ <;>
    simp [processRecord, if_neg hov, hcls, hp, Except.map]

/-- Witness for C7: the Sync record (tag 16) of the spec's end-to-end
example leaves the physics statistics and sequence number untouched. -/
theorem c7_v2_nonphysics_effects_witness :
    (processRecord 2 [1, 1048576] initState).map (fun t => t.nphys) =
      .ok initState.nphys ∧
    (processRecord 2 [1, 1048576] initState).map (fun t => t.min_evlen) =
      .ok initState.min_evlen ∧
    (processRecord 2 [1, 1048576] initState).map (fun t => t.gEvNum) =
      .ok initState.gEvNum :=
  ⟨(c7_v2_nonphysics_effects [1, 1048576] initState (by decide) (by decide)).2.1,
    (c7_v2_nonphysics_effects [1, 1048576] initState (by decide) (by decide)).2.2.2.1,
    (c7_v2_nonphysics_effects [1, 1048576] initState (by decide) (by decide)).2.2.2.2.1⟩

/-- Claim C9: for every V2 physics record (tag at most 14), the
sequence number is read from word 4 of the staged buffer with no check
that the record's decoded length is at least 5 words: a self-describing
physics record declaring fewer than 5 words is processed successfully
and the value read is the old buffer content at index 4 — inside the
fixed 102400-word buffer but outside the current record, i.e. stale
content left over from a previous read. -/
theorem c9_stale_word4 (r : List Nat) (s : BenchState)
    (hsd : r.length = r.getD 0 0 + 1)
    (hshort : r.getD 0 0 + 1 < 5)
    (hphys : bufTag (stage r s.buf) ≤ MAX_PHYS_EVTYPE) :
    (processRecord 2 r s).map (fun t => t.gEvNum) = .ok (s.buf 4) ∧
    4 < MAXEVLEN ∧ r.length ≤ 4 := by
  have hr4 : r.length ≤ 4 := by omega
  have h1 : 1 ≤ r.length := by omega
  have hev : bufEvlen (stage r s.buf) = r.length % U32 := by
    rw [bufEvlen_stage r s.buf h1]
    unfold recEvlen
    rw [← hsd]
  have hevle : bufEvlen (stage r s.buf) ≤ MAXEVLEN := by
    rw [hev]
    have hm : r.length % U32 ≤ r.length := Nat.mod_le r.length U32
    have : (102400 : Nat) = MAXEVLEN := rfl
    omega
  have hov : ¬ MAXEVLEN < bufEvlen (stage r s.buf) := not_lt.mpr hevle
  have hcls : classify 2 (stage r s.buf) = .ok (bufTag (stage r s.buf)) := by
    simp [classify]
  have hst : stage r s.buf 4 = s.buf 4 := stage_apply_ge r s.buf hr4
  refine ⟨?_, by decide, hr4⟩
  simp [processRecord, if_neg hov, hcls, hphys, hst, Except.map]

/-- Witness for C9: the record `[2, 0, 5]` declares length 3; with a
buffer whose word 4 still holds 99 from an earlier read, the extracted
sequence number is that stale 99. -/
theorem c9_stale_word4_witness :
    (processRecord 2 [2, 0, 5]
        { initState with buf := fun i => if i = 4 then 99 else 0 }).map
      (fun t => t.gEvNum) = .ok 99 := by
  have h := (c9_stale_word4 [2, 0, 5]
    { initState with buf := fun i => if i = 4 then 99 else 0 }
    (by decide) (by decide) (by decide)).1
  simpa using h

/-- The traced run computes the same result as the untraced one. -/
theorem processFilesT_fst (fs : List Source) (i : Nat) (h : Option Nat)
    (s : BenchState) :
    (processFilesT fs i h s).1 = processFiles fs s := by
  induction fs generalizing i h s with
  | nil => rfl
  | cons f fs ih =>
    simp only [processFilesT, processFiles]
    by_cases ho : f.openOK = true
    · rw [if_pos ho, if_pos ho]
      cases hf : processFileAfterOpen f s with
      | ok s' => simpa using ih (i + 1) (some i) s'
      | error en => rfl
    · rw [if_neg ho, if_neg ho]

/-- Every source opened during the traced loop is either closed within
the loop's trace or is the source the final handle points at. -/
theorem processFilesT_closes (fs : List Source) (i : Nat) (h : Option Nat)
    (s : BenchState) (j : Nat)
    (hj : TraceEv.openEv j ∈ (processFilesT fs i h s).2.1) :
    TraceEv.closeEv j ∈ (processFilesT fs i h s).2.1 ∨
      (processFilesT fs i h s).2.2 = some j := by
  induction fs generalizing i h s with
  | nil => simp [processFilesT] at hj
  | cons f fs ih =>
    by_cases ho : f.openOK = true
    · cases hf : processFileAfterOpen f s with
      | ok s' =>
        simp only [processFilesT, if_pos ho, hf] at hj ⊢
        rcases List.mem_cons.mp hj with he | hj2
        · injection he with hji
          subst hji
          left
          simp
        · rcases List.mem_cons.mp hj2 with he | hj3
          · exact absurd he (by simp)
          · rcases ih (i + 1) (some i) s' hj3 with hc | hh
            · left
              exact List.mem_cons_of_mem _ (List.mem_cons_of_mem _ hc)
            · right
              exact hh
      | error en =>
        simp only [processFilesT, if_pos ho, hf] at hj ⊢
        right
        rcases List.mem_cons.mp hj with he | hj2
        · injection he with hji
          rw [hji]
        · simp at hj2
    · simp only [processFilesT, if_neg ho] at hj
      simp at hj

/-- Claim C6: every error during open, version query, read, or
classification — including a reported version outside {2,3} — aborts
the run: the process exits with status 2, no statistics report is
produced, the diagnostic carries the failure cause together with the
last successfully observed physics sequence number, and every source
that was opened is closed (the catch block closes the current
handle). -/
theorem c6_error_abort (srcs : List Source) (e : EvioError) (n : Nat)
    (h : processFiles srcs initState = .error (e, n)) :
    (evioMain srcs).exitCode = 2 ∧
    (evioMain srcs).report = none ∧
    (evioMain srcs).errMsg = some (e, n) ∧
    (∀ j, TraceEv.openEv j ∈ (evioMain srcs).trace →
      TraceEv.closeEv j ∈ (evioMain srcs).trace) ∧
    (∀ (f : Source) (t : BenchState), f.openOK = true →
      f.version ≠ 2 → f.version ≠ 3 →
      processFileAfterOpen f t = .error (.UnsupportedVersion f.version, t.gEvNum)) := by
  have hfst : (processFilesT srcs 0 none initState).1 = .error (e, n) := by
    rw [processFilesT_fst]
    exact h
  rcases hT : processFilesT srcs 0 none initState with ⟨res, tr, hd⟩
  rw [hT] at hfst
  simp only at hfst
  subst hfst
  have hmain : evioMain srcs =
      { exitCode := 2, report := none, errMsg := some (e, n),
        trace := tr ++ catchClose hd } := by
    simp only [evioMain, hT]
  refine ⟨by rw [hmain], by rw [hmain], by rw [hmain], ?_, ?_⟩
  · intro j hj
    rw [hmain] at hj ⊢
    simp only [List.mem_append] at hj ⊢
    rcases hj with hj | hj
    · have := processFilesT_closes srcs 0 none initState j (by rw [hT]; exact hj)
      rw [hT] at this
      simp only at this
      rcases this with hc | hh
      · exact Or.inl hc
      · right
        rw [hh]
        simp [catchClose]
    · exfalso
      cases hd with
      | some i => simp [catchClose] at hj
      | none => simp [catchClose] at hj
  · intro f t ho h2 h3
    have hv : f.version ≠ 2 ∧ f.version ≠ 3 := ⟨h2, h3⟩
    simp [processFileAfterOpen, hv]

/-- Witness for C6: a source reporting version 4 aborts the run with
exit status 2, no report, and the UnsupportedVersion diagnostic at
sequence number 0. -/
theorem c6_error_abort_witness :
    (evioMain [⟨true, 4, [], false⟩]).exitCode = 2 ∧
    (evioMain [⟨true, 4, [], false⟩]).report = none ∧
    (evioMain [⟨true, 4, [], false⟩]).errMsg =
      some (.UnsupportedVersion 4, 0) :=
  ⟨(c6_error_abort [⟨true, 4, [], false⟩] (.UnsupportedVersion 4) 0 rfl).1,
    (c6_error_abort [⟨true, 4, [], false⟩] (.UnsupportedVersion 4) 0 rfl).2.1,
    (c6_error_abort [⟨true, 4, [], false⟩] (.UnsupportedVersion 4) 0 rfl).2.2.1⟩

/-- Claim C2 counterexample: a run over one successfully opened v2
source with zero records reaches the report unconditionally — exit
status 0, a full report whose average-event-length division has
divisor `nev = 0` — instead of the guarded DivisionUndefined outcome
the claim describes.  No DivisionUndefined error kind exists anywhere
in the program. -/
theorem c2_division_guard_counterexample :
    evioMain [⟨true, 2, [], false⟩] =
      { exitCode := 0,
        report := some { nFiles := 1, nev := 0, nphys := 0, totBytes := 0,
                         minPhysBytes := 4294967292, maxPhysBytes := 0,
                         maxAnyBytes := 0, avgDen := 0 },
        errMsg := none,
        trace := [.openEv 0, .closeEv 0] } := by
  decide

/-- Claim C2 as amended: when the total record count is zero at report
time, the division is not guarded — the run still succeeds (exit 0, no
error diagnostic), the report is printed, and the average-event-length
figure is computed by the floating-point division `4.0*totlen/nev`
whose divisor is 0 (yielding NaN), with no DivisionUndefined report. -/
theorem c2_division_unguarded (srcs : List Source)
    (hok : (processFiles srcs initState).map (fun t => t.nev) = .ok 0) :
    (evioMain srcs).exitCode = 0 ∧
    (evioMain srcs).errMsg = none ∧
    (evioMain srcs).report.map (fun rep => rep.avgDen) = some 0 ∧
    (evioMain srcs).report ≠ none := by
  cases hps : processFiles srcs initState with
  | error en =>
    rw [hps] at hok
    simp [Except.map] at hok
  | ok s =>
    rw [hps] at hok
    simp only [Except.map, Except.ok.injEq] at hok
    have hfst : (processFilesT srcs 0 none initState).1 = .ok s := by
      rw [processFilesT_fst]
      exact hps
    rcases hT : processFilesT srcs 0 none initState with ⟨res, tr, hd⟩
    rw [hT] at hfst
    simp only at hfst
    subst hfst
    have hmain : evioMain srcs =
        { exitCode := 0, report := some (mkReport srcs.length s),
          errMsg := none, trace := tr } := by
      simp only [evioMain, hT]
    rw [hmain]
    refine ⟨rfl, rfl, ?_, by simp⟩
    simp [mkReport, hok]

/-- Witness for the amended C2: the zero-record run at a concrete
source. -/
theorem c2_division_unguarded_witness :
    (evioMain [⟨true, 2, [], false⟩]).exitCode = 0 ∧
    (evioMain [⟨true, 2, [], false⟩]).errMsg = none ∧
    (evioMain [⟨true, 2, [], false⟩]).report.map (fun rep => rep.avgDen) =
      some 0 ∧
    (evioMain [⟨true, 2, [], false⟩]).report ≠ none :=
  c2_division_unguarded [⟨true, 2, [], false⟩] (by decide)

theorem recOK_elim (version : Nat) (r : List Nat) (h : recOK version r = true) :
    ¬ MAXEVLEN < recEvlen r ∧ recTagKnown version r = true := by
  simp only [recOK, Bool.and_eq_true, decide_eq_true_eq] at h
  exact ⟨not_lt.mpr h.1, h.2⟩

/-- One successful loop iteration advances the fold to `recNext`. -/
theorem processRecords_cons_ok (version : Nat) (r : List Nat)
    (rs : List (List Nat)) (s : BenchState) (h2 : 2 ≤ r.length)
    (hok : recOK version r = true) :
    processRecords version (r :: rs) s =
      processRecords version rs (recNext version r s) := by
  obtain ⟨hnov, htk⟩ := recOK_elim version r hok
  simp only [processRecords, processRecord_char version r s h2, if_neg hnov,
    if_pos htk]

/-- A successful read loop implies every record passed its checks. -/
theorem processRecords_ok_elim (version : Nat) (rs : List (List Nat)) :
    ∀ (s s' : BenchState), (∀ r ∈ rs, 2 ≤ r.length) →
      processRecords version rs s = .ok s' →
      ∀ r ∈ rs, recOK version r = true := by
  induction rs with
  | nil =>
    intro s s' _ _ r hr
    simp at hr
  | cons r rs ih =>
    intro s s' hwf h r' hr'
    have h2 : 2 ≤ r.length := hwf r (by simp)
    have hstep := processRecord_char version r s h2
    by_cases hov : MAXEVLEN < recEvlen r
    · rw [if_pos hov] at hstep
      simp only [processRecords, hstep] at h
      exact Except.noConfusion h
    · by_cases htk : recTagKnown version r = true
      · rw [if_neg hov, if_pos htk] at hstep
        simp only [processRecords, hstep] at h
        rcases List.mem_cons.mp hr' with he | hm
        · subst he
          simp only [recOK, Bool.and_eq_true, decide_eq_true_eq]
          exact ⟨not_lt.mp hov, htk⟩
        · exact ih (recNext version r s) s'
            (fun x hx => hwf x (List.mem_cons_of_mem _ hx)) h r' hm
      · rw [if_neg hov, if_neg htk] at hstep
        simp only [processRecords, hstep] at h
        exact Except.noConfusion h

theorem recNext_WF (version : Nat) (r : List Nat) (s : BenchState)
    (hs : WFState s) : WFState (recNext version r s) := by
  have h32 : 0 < U32 := by decide
  have h64 : 0 < U64 := by decide
  refine ⟨?_, ?_, ?_⟩
  · rw [recNext_nev]
    exact Nat.mod_lt _ h32
  · rw [recNext_nphys]
    split_ifs
    · exact Nat.mod_lt _ h32
    · exact hs.2.1
  · rw [recNext_totlen]
    exact Nat.mod_lt _ h64

theorem initState_WF : WFState initState := by
  refine ⟨?_, ?_, ?_⟩ <;> norm_num [initState, U32, U64]

/-- Folding a list of well-formed, check-passing records succeeds from
any in-range state and adds the intrinsic record count, physics count,
and word total (modulo the machine word sizes). -/
theorem processRecords_run (version : Nat) (rs : List (List Nat)) :
    ∀ s : BenchState, (∀ r ∈ rs, 2 ≤ r.length) →
      (∀ r ∈ rs, recOK version r = true) → WFState s →
      ∃ s', processRecords version rs s = .ok s' ∧ WFState s' ∧
        s'.nev = (s.nev + rs.length) % U32 ∧
        s'.nphys = (s.nphys + physCount version rs) % U32 ∧
        s'.totlen = (s.totlen + wordCount rs) % U64 := by
  induction rs with
  | nil =>
    intro s _ _ hs
    refine ⟨s, rfl, hs, ?_, ?_, ?_⟩
    · simp [Nat.mod_eq_of_lt hs.1]
    · simp [physCount, Nat.mod_eq_of_lt hs.2.1]
    · simp [wordCount, Nat.mod_eq_of_lt hs.2.2]
  | cons r rs ih =>
    intro s hwf hall hs
    have h2 : 2 ≤ r.length := hwf r (by simp)
    have hok : recOK version r = true := hall r (by simp)
    have hstep := processRecords_cons_ok version r rs s h2 hok
    obtain ⟨s', hps, hWF', hn, hp, ht⟩ := ih (recNext version r s)
      (fun x hx => hwf x (List.mem_cons_of_mem _ hx))
      (fun x hx => hall x (List.mem_cons_of_mem _ hx))
      (recNext_WF version r s hs)
    have hU32 : U32 = 4294967296 := by norm_num [U32]
    have hU64 : U64 = 18446744073709551616 := by norm_num [U64]
    refine ⟨s', hstep.trans hps, hWF', ?_, ?_, ?_⟩
    · rw [hn, recNext_nev, List.length_cons, hU32]
      omega
    · rw [hp, recNext_nphys]
      have hcnt : physCount version (r :: rs) =
          physCount version rs + (if recIsPhys version r = true then 1 else 0) := by
        simp [physCount, List.countP_cons]
      rw [hcnt, hU32]
      by_cases hpr : recIsPhys version r = true
      · rw [if_pos hpr, if_pos hpr]
        omega
      · rw [if_neg hpr, if_neg hpr]
        omega
    · rw [ht, recNext_totlen]
      have hw : wordCount (r :: rs) = recEvlen r + wordCount rs := by
        simp [wordCount]
      rw [hw, hU64]
      omega

/-- A run over only non-physics records leaves the physics statistics
and their sentinels untouched. -/
theorem processRecords_nonphys (version : Nat) (rs : List (List Nat)) :
    ∀ s s' : BenchState, (∀ r ∈ rs, 2 ≤ r.length) →
      (∀ r ∈ rs, recIsPhys version r = false) →
      processRecords version rs s = .ok s' →
      s'.nphys = s.nphys ∧ s'.min_evlen = s.min_evlen ∧
        s'.max_evlen = s.max_evlen := by
  induction rs with
  | nil =>
    intro s s' _ _ h
    simp only [processRecords] at h
    cases h
    exact ⟨rfl, rfl, rfl⟩
  | cons r rs ih =>
    intro s s' hwf hnp h
    have h2 : 2 ≤ r.length := hwf r (by simp)
    have hstep := processRecord_char version r s h2
    by_cases hov : MAXEVLEN < recEvlen r
    · rw [if_pos hov] at hstep
      simp only [processRecords, hstep] at h
      exact Except.noConfusion h
    · by_cases htk : recTagKnown version r = true
      · rw [if_neg hov, if_pos htk] at hstep
        simp only [processRecords, hstep] at h
        have hr := ih (recNext version r s) s'
          (fun x hx => hwf x (List.mem_cons_of_mem _ hx))
          (fun x hx => hnp x (List.mem_cons_of_mem _ hx)) h
        have hpr : recIsPhys version r = false := hnp r (by simp)
        refine ⟨?_, ?_, ?_⟩
        · rw [hr.1, recNext_nphys, if_neg (by simp [hpr])]
        · rw [hr.2.1, recNext_min_evlen, if_neg (by simp [hpr])]
        · rw [hr.2.2, recNext_max_evlen, if_neg (by simp [hpr])]
      · rw [if_neg hov, if_neg htk] at hstep
        simp only [processRecords, hstep] at h
        exact Except.noConfusion h

theorem processFiles_single_elim (f : Source) (s s' : BenchState)
    (h : processFiles [f] s = .ok s') :
    f.openOK = true ∧ processFileAfterOpen f s = .ok s' := by
  by_cases ho : f.openOK = true
  · refine ⟨ho, ?_⟩
    simp only [processFiles, if_pos ho] at h
    cases hf : processFileAfterOpen f s with
    | ok s1 =>
      simp only [hf, processFiles] at h
      exact h
    | error en =>
      simp only [hf] at h
      exact Except.noConfusion h
  · simp only [processFiles, if_neg ho] at h
    exact Except.noConfusion h

theorem processFileAfterOpen_elim (f : Source) (s s1 : BenchState)
    (h : processFileAfterOpen f s = .ok s1) :
    (f.version = 2 ∨ f.version = 3) ∧ f.readTailError = false ∧
      processRecords f.version f.records s = .ok s1 := by
  by_cases hv : f.version ≠ 2 ∧ f.version ≠ 3
  · simp only [processFileAfterOpen, if_pos hv] at h
    exact Except.noConfusion h
  · have hv2 : f.version = 2 ∨ f.version = 3 := by tauto
    simp only [processFileAfterOpen, if_neg hv] at h
    cases hr : processRecords f.version f.records s with
    | error en =>
      simp only [hr] at h
      exact Except.noConfusion h
    | ok s2 =>
      simp only [hr] at h
      by_cases ht : f.readTailError = true
      · rw [if_pos ht] at h
        exact Except.noConfusion h
      · rw [if_neg ht] at h
        exact ⟨hv2, by simpa using ht, h⟩

theorem processFileAfterOpen_build (f : Source) (s s1 : BenchState)
    (hv : f.version = 2 ∨ f.version = 3) (ht : f.readTailError = false)
    (hr : processRecords f.version f.records s = .ok s1) :
    processFileAfterOpen f s = .ok s1 := by
  have hv' : ¬ (f.version ≠ 2 ∧ f.version ≠ 3) := by tauto
  simp only [processFileAfterOpen, if_neg hv', hr, ht]
  simp

theorem processFiles_cons_build (f : Source) (fs : List Source)
    (s s1 : BenchState) (ho : f.openOK = true)
    (hf : processFileAfterOpen f s = .ok s1) :
    processFiles (f :: fs) s = processFiles fs s1 := by
  simp only [processFiles, if_pos ho, hf]

/-- Claim C8: for file lists whose records carry at least their two
header words, processing the sources `[A, B]` in one run yields the
same total record count, physics count, cumulative word length, and
byte totals as processing `A` alone and `B` alone and summing those
counts (modulo the machine word sizes the program counts in), and
swapping the order of the two sources changes none of these totals. -/
theorem c8_totals_additive (A B : Source) (sa sb : BenchState)
    (hwfA : ∀ r ∈ A.records, 2 ≤ r.length)
    (hwfB : ∀ r ∈ B.records, 2 ≤ r.length)
    (ha : processFiles [A] initState = .ok sa)
    (hb : processFiles [B] initState = .ok sb) :
    ∃ s s', processFiles [A, B] initState = .ok s ∧
      processFiles [B, A] initState = .ok s' ∧
      s.nev = (sa.nev + sb.nev) % U32 ∧
      s.nphys = (sa.nphys + sb.nphys) % U32 ∧
      s.totlen = (sa.totlen + sb.totlen) % U64 ∧
      (4 * s.totlen) % U64 =
        ((4 * sa.totlen) % U64 + (4 * sb.totlen) % U64) % U64 ∧
      s'.nev = s.nev ∧ s'.nphys = s.nphys ∧ s'.totlen = s.totlen := by
  obtain ⟨hoA, hfA⟩ := processFiles_single_elim A initState sa ha
  obtain ⟨hvA, htA, hrA⟩ := processFileAfterOpen_elim A initState sa hfA
  obtain ⟨hoB, hfB⟩ := processFiles_single_elim B initState sb hb
  obtain ⟨hvB, htB, hrB⟩ := processFileAfterOpen_elim B initState sb hfB
  have hallA := processRecords_ok_elim A.version A.records initState sa hwfA hrA
  have hallB := processRecords_ok_elim B.version B.records initState sb hwfB hrB
  obtain ⟨sa', hra', hWFa, hna, hpa, hta⟩ :=
    processRecords_run A.version A.records initState hwfA hallA initState_WF
  rw [hra'] at hrA
  injection hrA with hsa
  rw [hsa] at hWFa hna hpa hta
  obtain ⟨sb', hrb', hWFb, hnb, hpb, htb⟩ :=
    processRecords_run B.version B.records initState hwfB hallB initState_WF
  rw [hrb'] at hrB
  injection hrB with hsb
  rw [hsb] at hWFb hnb hpb htb
  obtain ⟨s2, hr2, hWF2, hn2, hp2, ht2⟩ :=
    processRecords_run B.version B.records sa hwfB hallB hWFa
  have hfB2 := processFileAfterOpen_build B sa s2 hvB htB hr2
  have hAB : processFiles [A, B] initState = .ok s2 := by
    rw [processFiles_cons_build A [B] initState sa hoA hfA,
      processFiles_cons_build B [] sa s2 hoB hfB2]
    rfl
  obtain ⟨s3, hr3, hWF3, hn3, hp3, ht3⟩ :=
    processRecords_run A.version A.records sb hwfA hallA hWFb
  have hfA2 := processFileAfterOpen_build A sb s3 hvA htA hr3
  have hBA : processFiles [B, A] initState = .ok s3 := by
    rw [processFiles_cons_build B [A] initState sb hoB hfB,
      processFiles_cons_build A [] sb s3 hoA hfA2]
    rfl
  have hU32 : U32 = 4294967296 := by norm_num [U32]
  have hU64 : U64 = 18446744073709551616 := by norm_num [U64]
  simp only [initState] at hna hpa hta hnb hpb htb
  refine ⟨s2, s3, hAB, hBA, ?_, ?_, ?_, ?_, ?_, ?_, ?_⟩
  · rw [hn2, hna, hnb, hU32]
    omega
  · rw [hp2, hpa, hpb, hU32]
    omega
  · rw [ht2, hta, htb, hU64]
    omega
  · rw [ht2, hta, htb, hU64]
    omega
  · rw [hn3, hnb, hn2, hna, hU32]
    omega
  · rw [hp3, hpb, hp2, hpa, hU32]
    omega
  · rw [ht3, htb, ht2, hta, hU64]
    omega

/-- Witness for C8: one Sync-only source and one physics source; the
combined run's totals equal the sums of the individual runs' totals in
either order. -/
theorem c8_totals_additive_witness :
    ∃ s s', processFiles [srcSync, srcPhys] initState = .ok s ∧
      processFiles [srcPhys, srcSync] initState = .ok s' ∧
      s.nev = (stSync.nev + stPhys.nev) % U32 ∧
      s.nphys = (stSync.nphys + stPhys.nphys) % U32 ∧
      s.totlen = (stSync.totlen + stPhys.totlen) % U64 ∧
      (4 * s.totlen) % U64 =
        ((4 * stSync.totlen) % U64 + (4 * stPhys.totlen) % U64) % U64 ∧
      s'.nev = s.nev ∧ s'.nphys = s.nphys ∧ s'.totlen = s.totlen :=
  c8_totals_additive srcSync srcPhys stSync stPhys
    (by decide) (by decide) (by rfl) (by rfl)

/-- Runs over well-formed non-physics records leave the physics
statistics of the whole multi-file fold untouched. -/
theorem processFiles_nonphys (fs : List Source) :
    ∀ s s' : BenchState,
      (∀ f ∈ fs, ∀ r ∈ f.records, 2 ≤ r.length) →
      (∀ f ∈ fs, ∀ r ∈ f.records, recIsPhys f.version r = false) →
      processFiles fs s = .ok s' →
      s'.nphys = s.nphys ∧ s'.min_evlen = s.min_evlen ∧
        s'.max_evlen = s.max_evlen := by
  induction fs with
  | nil =>
    intro s s' _ _ h
    simp only [processFiles] at h
    cases h
    exact ⟨rfl, rfl, rfl⟩
  | cons f fs ih =>
    intro s s' hwf hnp h
    by_cases ho : f.openOK = true
    · simp only [processFiles, if_pos ho] at h
      cases hf : processFileAfterOpen f s with
      | error en =>
        simp only [hf] at h
        exact Except.noConfusion h
      | ok s1 =>
        simp only [hf] at h
        obtain ⟨hv, ht, hr⟩ := processFileAfterOpen_elim f s s1 hf
        have h1 := processRecords_nonphys f.version f.records s s1
          (hwf f (by simp)) (hnp f (by simp)) hr
        have h2 := ih s1 s'
          (fun g hg => hwf g (List.mem_cons_of_mem _ hg))
          (fun g hg => hnp g (List.mem_cons_of_mem _ hg)) h
        exact ⟨h2.1.trans h1.1, h2.2.1.trans h1.2.1, h2.2.2.trans h1.2.2⟩
    · simp only [processFiles, if_neg ho] at h
      exact Except.noConfusion h

/-- Claim C10: a successful run over well-formed records none of which
is physics (so zero physics records, while at least one record exists)
prints a report whose minimum physics length is 4294967292 bytes — the
32-bit sentinel UINT_MAX times 4 reduced modulo 2^32 — and whose
maximum physics length is 0 bytes, with the physics count 0 the only
indication that no physics record was seen. -/
theorem c10_min_sentinel (srcs : List Source)
    (hwf : ∀ f ∈ srcs, ∀ r ∈ f.records, 2 ≤ r.length)
    (hnp : ∀ f ∈ srcs, ∀ r ∈ f.records, recIsPhys f.version r = false)
    (hrec : ∃ f, f ∈ srcs ∧ f.records ≠ [])
    (hok : (processFiles srcs initState).isOk = true) :
    (evioMain srcs).exitCode = 0 ∧
    (evioMain srcs).report.map (fun rep => rep.minPhysBytes) =
      some 4294967292 ∧
    (evioMain srcs).report.map (fun rep => rep.maxPhysBytes) = some 0 ∧
    (evioMain srcs).report.map (fun rep => rep.nphys) = some 0 := by
  cases hps : processFiles srcs initState with
  | error en =>
    rw [hps] at hok
    simp [Except.isOk, Except.toBool] at hok
  | ok s =>
    obtain ⟨hnphys, hmin, hmax⟩ :=
      processFiles_nonphys srcs initState s hwf hnp hps
    have hfst : (processFilesT srcs 0 none initState).1 = .ok s := by
      rw [processFilesT_fst]
      exact hps
    rcases hT : processFilesT srcs 0 none initState with ⟨res, tr, hd⟩
    rw [hT] at hfst
    simp only at hfst
    subst hfst
    have hmain : evioMain srcs =
        { exitCode := 0, report := some (mkReport srcs.length s),
          errMsg := none, trace := tr } := by
      simp only [evioMain, hT]
    rw [hmain]
    have hmin0 : s.min_evlen = U32 - 1 := by
      rw [hmin]
      rfl
    have hmax0 : s.max_evlen = 0 := by
      rw [hmax]
      rfl
    have hnp0 : s.nphys = 0 := by
      rw [hnphys]
      rfl
    have hsent : (4 * (U32 - 1)) % U32 = 4294967292 := by decide
    refine ⟨rfl, ?_, ?_, ?_⟩ <;>
      simp [mkReport, hmin0, hmax0, hnp0, hsent]

/-- Witness for C10: a run over one source holding a single Sync
record reports the 4294967292-byte sentinel as the minimum physics
length, 0 as the maximum, and physics count 0. -/
theorem c10_min_sentinel_witness :
    (evioMain [srcSync]).exitCode = 0 ∧
    (evioMain [srcSync]).report.map (fun rep => rep.minPhysBytes) =
      some 4294967292 ∧
    (evioMain [srcSync]).report.map (fun rep => rep.maxPhysBytes) = some 0 ∧
    (evioMain [srcSync]).report.map (fun rep => rep.nphys) = some 0 :=
  c10_min_sentinel [srcSync] (by decide) (by decide)
    ⟨srcSync, by decide, by decide⟩ (by decide)

end EvioBench
